import Mathlib

/-!
Verification of the Excel Insight Engine analysis passes
(`excel_insights.py`, class `ExcelInsights`).

The statistical core is modelled exactly, over exact rationals:

* a pandas `DataFrame` becomes a `Table`: a list of named `Column`s, each
  carrying its pandas dtype tag and an aligned list of cells (a cell is a
  number, a string, a date, or an explicit null);
* `select_dtypes(include=[np.number])` / `include=["object","string","category"]`
  become filters on the dtype tag;
* float arithmetic is modelled by `ℚ`.  The two places where pandas produces
  an irrational number (`std` and the Pearson denominator `sqrt(varX*varY)`)
  are modelled square-free: the sample variance stands for the square of the
  reported std, and the threshold comparisons `|corr| >= t` and `std == 0`
  are encoded by the equivalent polynomial comparisons (the bridge lemma
  `absCorrGe_iff_pearson` proves the encoding equal to the real-valued
  comparison with `Real.sqrt`);
* a NaN produced by pandas (zero-variance correlation, `std` of fewer than
  two values) never flows into a reported result: every NaN comparison in the
  source is false, and the model takes the same branch directly;
* `pd.to_datetime(..., errors="coerce")` is an external collaborator; the
  temporal pass is parametrised by the element parsers (`String → Option ℤ`,
  `ℚ → Option ℤ`), dates being modelled at day granularity;
* the engine object (`self.data`, `self.sheets`, `self.insights`, plus the
  `print` diagnostics) becomes an explicit `EngineState`, threaded through
  state-passing versions of the five passes; Python `dict` assignment
  becomes `dictInsert` (overwrite in place, insertion order preserved).
-/

/-! ## Generic list helpers -/

/-- Stable insertion of one element into a list w.r.t. a boolean comparison. -/
def insertBy {α : Type} (le : α → α → Bool) (x : α) : List α → List α
  | [] => [x]
  | y :: ys => if le x y then x :: y :: ys else y :: insertBy le x ys

/-- Stable insertion sort: keeps the original order of elements the comparison
ties, which is what a stable pandas sort does. -/
def sortBy {α : Type} (le : α → α → Bool) (l : List α) : List α :=
  l.foldr (insertBy le) []

/-- Ascending numeric sort, as used by `Series.quantile` on the dropna values. -/
def sortAsc (l : List ℚ) : List ℚ := sortBy (fun a b => decide (a ≤ b)) l

/-- First-occurrence list of the distinct elements (the key set of a pandas
`value_counts`, whose hash table keeps first-encountered order). -/
def distinctFirstAux {α : Type} [DecidableEq α] (seen : List α) : List α → List α
  | [] => []
  | x :: xs => if x ∈ seen then distinctFirstAux seen xs else x :: distinctFirstAux (x :: seen) xs

/-- Distinct elements of a list in order of first occurrence. -/
def distinctFirst {α : Type} [DecidableEq α] (l : List α) : List α := distinctFirstAux [] l

/-- Association-list lookup with propositional key comparison; models Python
`dict` lookup / the `in` test on `self.sheets` and `self.insights`. -/
def alookup {β : Type} (k : String) : List (String × β) → Option β
  | [] => none
  | (k', v) :: rest => if k' = k then some v else alookup k rest

/-- Python `dict` assignment `d[k] = v`: overwrites in place if the key is
present (keeping its position), otherwise appends at the end. -/
def dictInsert {β : Type} (k : String) (v : β) : List (String × β) → List (String × β)
  | [] => [(k, v)]
  | (k', v') :: rest => if k' = k then (k, v) :: rest else (k', v') :: dictInsert k v rest

/-! ## The table data model -/

/-- One cell of a loaded sheet: a float/int, a string, a timestamp (modelled at
day granularity), or a missing value (`NaN`/`NaT`/`None`). -/
inductive Cell where
  | num (q : ℚ)
  | str (s : String)
  | date (d : ℤ)
  | null
deriving DecidableEq

/-- The pandas dtype tag a column carries after `pd.read_excel`. -/
inductive DType where
  | numeric
  | object
  | string
  | category
  | datetime
  | boolean
deriving DecidableEq

/-- One named dataframe column. -/
structure Column where
  name : String
  dtype : DType
  cells : List Cell
deriving DecidableEq

/-- A dataframe: the ordered list of its columns (all of equal length in any
table pandas actually builds). -/
abbrev Table := List Column

/-- Row count of the dataframe (`len(data)`): the common length of its
columns, read off the first one. -/
def nRows (t : Table) : ℕ :=
  match t with
  | [] => 0
  | c :: _ => c.cells.length

/-- The numeric payload of a cell, if any. -/
def cellNum : Cell → Option ℚ
  | .num q => some q
  | _ => none

/-- The non-null numeric values of a column, in row order
(`data[col].dropna()`). -/
def nonNull (c : Column) : List ℚ := c.cells.filterMap cellNum

/-- Column count of nulls (`isnull().sum()`). -/
def nullCount (c : Column) : ℕ := c.cells.countP (fun x => decide (x = Cell.null))

/-- `data.select_dtypes(include=[np.number]).columns`. -/
def numerical_cols (t : Table) : List Column :=
  t.filter (fun c => decide (c.dtype = DType.numeric))

/-- `data.select_dtypes(include=["object", "string", "category"]).columns`. -/
def categorical_cols (t : Table) : List Column :=
  t.filter (fun c =>
    decide (c.dtype = DType.object ∨ c.dtype = DType.string ∨ c.dtype = DType.category))

/-! ## Shared statistics -/

/-- Arithmetic mean (`Series.mean`); `0` on the empty list, a value the model
never reports (pandas' NaN there never reaches an output either). -/
def mean (l : List ℚ) : ℚ := l.sum / l.length

/-- Sum of squared deviations from the mean.  `sqDev l / (l.length - 1)` is
the sample variance, whose square root is the pandas `std` (ddof = 1);
`std == 0` iff `sqDev = 0` (when at least two values exist). -/
def sqDev (l : List ℚ) : ℚ := (l.map (fun x => (x - mean l) ^ 2)).sum

/-- `Series.quantile(q)` with the default linear interpolation: on the sorted
values, position `q*(n-1)`, linearly interpolated between the neighbouring
order statistics. -/
def quantile (xs : List ℚ) (q : ℚ) : ℚ :=
  let s := sortAsc xs
  let pos := q * ((s.length : ℚ) - 1)
  let i := (⌊pos⌋).toNat
  let lo := s.getD i 0
  lo + (pos - (i : ℚ)) * (s.getD (i + 1) lo - lo)

/-! ## Outlier pass (`identify_outliers`) -/

/-- One value of the per-column outlier report. -/
structure OutlierEntry where
  count : ℕ
  percentage : ℚ
  values : List ℚ
deriving DecidableEq

/-- The IQR branch: values outside `[Q1 - t*IQR, Q3 + t*IQR]`, in row order. -/
def iqrOutliers (xs : List ℚ) (t : ℚ) : List ℚ :=
  let q1 := quantile xs (1/4)
  let q3 := quantile xs (3/4)
  let iqr := q3 - q1
  let lower := q1 - t * iqr
  let upper := q3 + t * iqr
  xs.filter (fun x => decide (x < lower) || decide (x > upper))

/-- The z-score branch.  `none` models the `continue` that skips a column with
`std == 0`.  With fewer than two values the pandas `std` is NaN: the
`std == 0` test is false and every NaN z-score comparison is false, so the
column yields no outliers; otherwise `|x - mean|/std > t` is encoded
square-free as `t < 0 ∨ (x - mean)^2 * (n-1) > t^2 * sqDev`. -/
def zscoreOutliers (xs : List ℚ) (t : ℚ) : Option (List ℚ) :=
  let n := xs.length
  let m := mean xs
  if n < 2 then some []
  else if sqDev xs = 0 then none
  else some (xs.filter (fun x =>
    decide (t < 0) || decide (t ^ 2 * sqDev xs < (x - m) ^ 2 * ((n : ℚ) - 1))))

/-- Per-column dispatch on the method string: the final `else` branch repeats
the IQR computation and prints the unknown-method diagnostic. -/
def outlierColResult (method : String) (t : ℚ) (xs : List ℚ) :
    Option (List ℚ) × List String :=
  if method = "iqr" then (some (iqrOutliers xs t), [])
  else if method = "zscore" then (zscoreOutliers xs t, [])
  else (some (iqrOutliers xs t),
    ["Unknown method: " ++ method ++ ". Using IQR method instead."])

/-- The report entry built for a column with a non-empty outlier list
(count, percentage of the non-null values, first ten values). -/
def mkOutlierEntry (xs flagged : List ℚ) : OutlierEntry :=
  { count := flagged.length
    percentage := ((flagged.length : ℚ) / xs.length) * 100
    values := flagged.take 10 }

/-- The contribution of one numeric column to the outlier mapping:
nothing if the column was skipped or its outlier list is empty. -/
def outlierEntryFor (method : String) (t : ℚ) (c : Column) :
    Option (String × OutlierEntry) :=
  let xs := nonNull c
  match (outlierColResult method t xs).1 with
  | some flagged => if flagged = [] then none else some (c.name, mkOutlierEntry xs flagged)
  | none => none

/-- `identify_outliers` on a resolved dataframe.  First component `none`
models the early `return {}` when there is no numeric column (nothing is
stored in that case); the second component is the printed diagnostics. -/
def identify_outliers_table (t : Table) (method : String) (thr : ℚ) :
    Option (List (String × OutlierEntry)) × List String :=
  let numCols := numerical_cols t
  if numCols = [] then (none, ["No numerical columns found in the data."])
  else
    (some (numCols.filterMap (outlierEntryFor method thr)),
     (numCols.map (fun c => (outlierColResult method thr (nonNull c)).2)).flatten)

/-! ## Correlation pass (`find_correlations`) -/

/-- Pairwise-complete observations of two columns: the rows where both cells
are numeric, as pandas `DataFrame.corr` uses per pair. -/
def pairRows (a b : Column) : List (ℚ × ℚ) :=
  (a.cells.zip b.cells).filterMap (fun p =>
    match cellNum p.1, cellNum p.2 with
    | some x, some y => some (x, y)
    | _, _ => none)

/-- Sum of products of deviations over paired rows (the Pearson numerator up
to the `1/(n-1)` factor that cancels against the denominator). -/
def covSum (ps : List (ℚ × ℚ)) : ℚ :=
  let mx := mean (ps.map Prod.fst)
  let my := mean (ps.map Prod.snd)
  (ps.map (fun p => (p.1 - mx) * (p.2 - my))).sum

/-- Exact representation of one Pearson coefficient
`cov / sqrt(vx * vy)` by its three rational ingredients. -/
structure Corr3 where
  cov : ℚ
  vx : ℚ
  vy : ℚ
deriving DecidableEq

/-- The Pearson ingredients of a pair of columns over their
pairwise-complete rows. -/
def corr3 (a b : Column) : Corr3 :=
  let ps := pairRows a b
  { cov := covSum ps, vx := sqDev (ps.map Prod.fst), vy := sqDev (ps.map Prod.snd) }

/-- The filter `abs(correlation) >= threshold` of the source, encoded
square-free: when either variance is zero the pandas coefficient is NaN and
the comparison is false; otherwise `|cov|/sqrt(vx*vy) >= t` iff
`t <= 0 ∨ t^2*(vx*vy) <= cov^2` (lemma `absCorrGe_iff_pearson`). -/
def absCorrGe (c : Corr3) (t : ℚ) : Bool :=
  decide (c.vx ≠ 0) && decide (c.vy ≠ 0) &&
    (decide (t ≤ 0) || decide (t ^ 2 * (c.vx * c.vy) ≤ c.cov ^ 2))

/-- The dictionary key `f"{col1} - {col2}"`. -/
def mkKey (a b : String) : String := a ++ " - " ++ b

/-- All pairs `(l[i], l[j])` with `i < j`, in the order of the source's
double loop. -/
def colPairs {α : Type} : List α → List (α × α)
  | [] => []
  | x :: xs => xs.map (fun y => (x, y)) ++ colPairs xs

/-- `find_correlations` on a resolved dataframe.  First component `none`
models the early `return {}` when fewer than two numeric columns exist. -/
def find_correlations_table (t : Table) (thr : ℚ) :
    Option (List (String × Corr3)) × List String :=
  let cols := numerical_cols t
  if cols.length < 2 then
    (none, ["Need at least 2 numerical columns to calculate correlations."])
  else
    (some ((colPairs cols).filterMap (fun p =>
      let c := corr3 p.1 p.2
      if absCorrGe c thr then some (mkKey p.1.name p.2.name, c) else none)), [])

/-! ## Summary statistics pass (`generate_summary_statistics`) -/

/-- One column of `describe()`.  The `var` field carries the square of the
reported std (sample variance, ddof = 1); `none` models the NaN pandas
reports when too few values exist. -/
structure ColStats where
  count : ℕ
  mean : Option ℚ
  var : Option ℚ
  min : Option ℚ
  q25 : Option ℚ
  q50 : Option ℚ
  q75 : Option ℚ
  max : Option ℚ
deriving DecidableEq

/-- `describe()` figures for one numeric column (dropna applied by pandas). -/
def mkColStats (xs : List ℚ) : ColStats :=
  { count := xs.length
    mean := if xs.length = 0 then none else some (mean xs)
    var := if xs.length < 2 then none else some (sqDev xs / ((xs.length : ℚ) - 1))
    min := xs.min?
    q25 := if xs.length = 0 then none else some (quantile xs (1/4))
    q50 := if xs.length = 0 then none else some (quantile xs (1/2))
    q75 := if xs.length = 0 then none else some (quantile xs (3/4))
    max := xs.max? }

/-- The summary record: the numeric column list and the per-column figures. -/
structure SummaryRec where
  numerical_columns : List String
  statistics : List (String × ColStats)
deriving DecidableEq

/-- `generate_summary_statistics` on a resolved dataframe; `none` models the
early `return {}` when there is no numeric column. -/
def generate_summary_statistics_table (t : Table) :
    Option SummaryRec × List String :=
  let numCols := numerical_cols t
  if numCols = [] then (none, ["No numerical columns found in the data."])
  else
    (some { numerical_columns := numCols.map Column.name
            statistics := numCols.map (fun c => (c.name, mkColStats (nonNull c))) },
     [])

/-! ## Categorical pass (`analyze_categorical_data`) -/

/-- One value of the categorical analysis mapping. -/
structure CatEntry where
  unique_values : ℕ
  missing_values : ℕ
  missing_percentage : ℚ
  top_categories : List (Cell × ℕ)
  top_categories_pct : List (Cell × ℚ)
deriving DecidableEq

/-- `Series.value_counts()`: non-null values with their frequencies, sorted by
frequency descending, ties kept in first-encountered order. -/
def value_counts (cells : List Cell) : List (Cell × ℕ) :=
  let vals := cells.filter (fun c => decide (c ≠ Cell.null))
  sortBy (fun a b => decide (b.2 ≤ a.2)) ((distinctFirst vals).map (fun v => (v, vals.count v)))

/-- The categorical report entry of one column (`nrows` is `len(data)`,
`top_n` defaults to 5 in the source). -/
def mkCatEntryN (nrows top_n : ℕ) (c : Column) : CatEntry :=
  let vals := c.cells.filter (fun x => decide (x ≠ Cell.null))
  let top := (value_counts c.cells).take top_n
  { unique_values := (distinctFirst vals).length
    missing_values := nullCount c
    missing_percentage := ((nullCount c : ℚ) / nrows) * 100
    top_categories := top
    top_categories_pct := top.map (fun p => (p.1, ((p.2 : ℚ) / vals.length) * 100)) }

/-- `analyze_categorical_data` on a resolved dataframe; `none` models the
early `return {}` when there is no categorical column. -/
def analyze_categorical_data_table (t : Table) (top_n : ℕ) :
    Option (List (String × CatEntry)) × List String :=
  let catCols := categorical_cols t
  if catCols = [] then (none, ["No categorical columns found in the data."])
  else (some (catCols.map (fun c => (c.name, mkCatEntryN (nRows t) top_n c))), [])

/-! ## Temporal pass (`analyze_date_columns`) -/

/-- One value of the date analysis mapping.  Dates are day numbers; the
weekday/month/year name distributions the source derives from the same
values when more than ten dates exist are recorded by their guard. -/
structure DateEntry where
  min_date : Option ℤ
  max_date : Option ℤ
  range_days : Option ℤ
  missing_values : ℕ
  missing_percentage : ℚ
  has_distributions : Bool
deriving DecidableEq

/-- Element-level `pd.to_datetime(value, errors="coerce")`, parametrised by
the external string and number parsers; nulls coerce to NaT (`none`). -/
def parseCell (ps : String → Option ℤ) (pn : ℚ → Option ℤ) : Cell → Option ℤ
  | .null => none
  | .str s => ps s
  | .num q => pn q
  | .date d => some d

/-- The date payload of a cell of an already datetime-typed column. -/
def cellDate : Cell → Option ℤ
  | .date d => some d
  | _ => none

/-- The report entry over an element-wise parsed column. -/
def mkDateEntry (parsed : List (Option ℤ)) : DateEntry :=
  let somes := parsed.filterMap id
  let mn := somes.min?
  let mx := somes.max?
  { min_date := mn
    max_date := mx
    range_days :=
      match mn, mx with
      | some a, some b => some (b - a)
      | _, _ => none
    missing_values := parsed.countP (fun o => decide (o = none))
    missing_percentage := ((parsed.countP (fun o => decide (o = none)) : ℚ) / parsed.length) * 100
    has_distributions := decide (10 < somes.length) }

/-- The contribution of one column to the date analysis: a datetime-typed
column is always analyzed; any other column is parsed element-wise and kept
only when the `continue` guard `notnull_count / len < 0.7` fails.  With zero
rows that guard compares NaN and is false, so the column is kept. -/
def dateEntryFor (ps : String → Option ℤ) (pn : ℚ → Option ℤ) (c : Column) :
    Option (String × DateEntry) :=
  if c.dtype = DType.datetime then some (c.name, mkDateEntry (c.cells.map cellDate))
  else
    let parsed := c.cells.map (parseCell ps pn)
    if 0 < c.cells.length ∧
        ((parsed.countP Option.isSome : ℚ) / c.cells.length) < 7/10 then none
    else some (c.name, mkDateEntry parsed)

/-- `analyze_date_columns` on a resolved dataframe (it has no early return:
even an empty mapping is stored). -/
def analyze_date_columns_table (ps : String → Option ℤ) (pn : ℚ → Option ℤ) (t : Table) :
    Option (List (String × DateEntry)) × List String :=
  (some (t.filterMap (dateEntryFor ps pn)), [])

/-! ## The engine object and its insight accumulation -/

/-- The tagged union of the per-pass records stored in `self.insights`. -/
inductive Rec where
  | summary (s : SummaryRec)
  | corr (c : List (String × Corr3))
  | outl (o : List (String × OutlierEntry))
  | catg (c : List (String × CatEntry))
  | dates (d : List (String × DateEntry))
deriving DecidableEq

/-- The mutable state of an `ExcelInsights` object: the default dataframe,
the sheet dictionary, the nested insights dictionary, and the transcript of
`print` diagnostics. -/
structure EngineState where
  data : Option Table
  sheets : List (String × Table)
  insights : List (String × List (String × Rec))
  out : List String
deriving DecidableEq

/-- The data-resolution prologue shared by every pass:
`if sheet_name and sheet_name in self.sheets: ... elif self.data is not None: ...`.
Python truthiness makes the empty string behave like `None`. -/
def resolveData (st : EngineState) (sheet : Option String) : Option Table :=
  match sheet with
  | some s =>
      if s ≠ "" ∧ (alookup s st.sheets).isSome then alookup s st.sheets else st.data
  | none => st.data

/-- The key a record is stored under: `sheet_name` if truthy, else
`"default"`. -/
def storeKey (sheet : Option String) : String :=
  match sheet with
  | some s => if s ≠ "" then s else "default"
  | none => "default"

/-- `self.insights.setdefault(kind, {})[key] = r`, the store epilogue shared
by every pass. -/
def updateInsights (kind key : String) (r : Rec)
    (ins : List (String × List (String × Rec))) : List (String × List (String × Rec)) :=
  dictInsert kind (dictInsert key r ((alookup kind ins).getD [])) ins

/-- The diagnostic printed by every pass invoked before data is loaded. -/
def noDataMsg : String := "No data loaded. Please load an Excel file first."

/-- The shared shape of the five passes: resolve the dataframe (no data:
print and return empty), run the table-level computation (`none` models an
early `return {}` that stores nothing), otherwise store the record under
`(kind, storeKey sheet)` and return it. -/
def runPass {ρ : Type} (st : EngineState) (sheet : Option String) (kind : String)
    (f : Table → Option ρ × List String) (g : ρ → Rec) (emptyR : ρ) : ρ × EngineState :=
  match resolveData st sheet with
  | none => (emptyR, { st with out := st.out ++ [noDataMsg] })
  | some data =>
      match f data with
      | (none, msgs) => (emptyR, { st with out := st.out ++ msgs })
      | (some r, msgs) =>
          (r, { st with
                out := st.out ++ msgs
                insights := updateInsights kind (storeKey sheet) (g r) st.insights })

/-- `ExcelInsights.generate_summary_statistics(sheet_name)`. -/
def generate_summary_statistics (st : EngineState) (sheet : Option String) :
    SummaryRec × EngineState :=
  runPass st sheet "summary_statistics" generate_summary_statistics_table
    Rec.summary { numerical_columns := [], statistics := [] }

/-- `ExcelInsights.find_correlations(sheet_name, threshold)` (source default
threshold 0.5). -/
def find_correlations (st : EngineState) (sheet : Option String) (thr : ℚ) :
    List (String × Corr3) × EngineState :=
  runPass st sheet "correlations" (fun d => find_correlations_table d thr) Rec.corr []

/-- `ExcelInsights.identify_outliers(sheet_name, method, threshold)` (source
defaults: method `"iqr"`, threshold 1.5). -/
def identify_outliers (st : EngineState) (sheet : Option String)
    (method : String) (thr : ℚ) : List (String × OutlierEntry) × EngineState :=
  runPass st sheet "outliers" (fun d => identify_outliers_table d method thr) Rec.outl []

/-- `ExcelInsights.analyze_categorical_data(sheet_name, top_n)` (source
default top_n 5). -/
def analyze_categorical_data (st : EngineState) (sheet : Option String) (top_n : ℕ) :
    List (String × CatEntry) × EngineState :=
  runPass st sheet "categorical_analysis" (fun d => analyze_categorical_data_table d top_n)
    Rec.catg []

/-- `ExcelInsights.analyze_date_columns(sheet_name)`, parametrised by the
element parsers of `pd.to_datetime`. -/
def analyze_date_columns (ps : String → Option ℤ) (pn : ℚ → Option ℤ)
    (st : EngineState) (sheet : Option String) : List (String × DateEntry) × EngineState :=
  runPass st sheet "date_analysis" (fun d => analyze_date_columns_table ps pn d) Rec.dates []

/-! ## Dictionary lemmas -/

theorem alookup_dictInsert {β : Type} (k : String) (v : β) (m : List (String × β)) :
    alookup k (dictInsert k v m) = some v := by
  induction m with
  | nil => simp [dictInsert, alookup]
  | cons p rest ih =>
      obtain ⟨k', v'⟩ := p
      by_cases h : k' = k
      · simp [dictInsert, h, alookup]
      · simp [dictInsert, h, alookup, ih]

theorem alookup_dictInsert_ne {β : Type} (k k' : String) (v : β) (m : List (String × β))
    (h : k' ≠ k) : alookup k' (dictInsert k v m) = alookup k' m := by
  have h' : k ≠ k' := Ne.symm h
  induction m with
  | nil => simp [dictInsert, alookup, h']
  | cons p rest ih =>
      obtain ⟨k₀, v₀⟩ := p
      by_cases h0 : k₀ = k
      · subst h0
        simp [dictInsert, alookup, h']
      · simp [dictInsert, h0, alookup, ih]

theorem dictInsert_dictInsert {β : Type} (k : String) (v w : β) (m : List (String × β)) :
    dictInsert k v (dictInsert k w m) = dictInsert k v m := by
  induction m with
  | nil => simp [dictInsert]
  | cons p rest ih =>
      obtain ⟨k₀, v₀⟩ := p
      by_cases h : k₀ = k
      · simp [dictInsert, h]
      · simp [dictInsert, h, ih]

theorem updateInsights_idem (kind key : String) (r : Rec)
    (ins : List (String × List (String × Rec))) :
    updateInsights kind key r (updateInsights kind key r ins) = updateInsights kind key r ins := by
  unfold updateInsights
  rw [alookup_dictInsert, Option.getD_some, dictInsert_dictInsert, dictInsert_dictInsert]

/-! ## Engine-shape lemmas -/

theorem runPass_fields {ρ : Type} (st : EngineState) (sheet : Option String) (kind : String)
    (f : Table → Option ρ × List String) (g : ρ → Rec) (emptyR : ρ) :
    ((runPass st sheet kind f g emptyR).2).data = st.data ∧
      ((runPass st sheet kind f g emptyR).2).sheets = st.sheets := by
  unfold runPass
  cases resolveData st sheet with
  | none => exact ⟨rfl, rfl⟩
  | some d =>
      rcases h : f d with ⟨o, msgs⟩
      cases o <;> simp [h]

theorem resolveData_congr (st st' : EngineState) (sheet : Option String)
    (hd : st'.data = st.data) (hs : st'.sheets = st.sheets) :
    resolveData st' sheet = resolveData st sheet := by
  unfold resolveData
  cases sheet <;> simp [hd, hs]

theorem runPass_idem {ρ : Type} (st : EngineState) (sheet : Option String) (kind : String)
    (f : Table → Option ρ × List String) (g : ρ → Rec) (emptyR : ρ) :
    (runPass ((runPass st sheet kind f g emptyR).2) sheet kind f g emptyR).1 =
        (runPass st sheet kind f g emptyR).1 ∧
      ((runPass ((runPass st sheet kind f g emptyR).2) sheet kind f g emptyR).2).insights =
        ((runPass st sheet kind f g emptyR).2).insights := by
  have hfields := runPass_fields st sheet kind f g emptyR
  have hres : resolveData (runPass st sheet kind f g emptyR).2 sheet = resolveData st sheet :=
    resolveData_congr st _ sheet hfields.1 hfields.2
  unfold runPass at hres ⊢
  cases hr : resolveData st sheet with
  | none => rw [hr] at hres; simp [hr, hres]
  | some d =>
      rw [hr] at hres
      rcases hf : f d with ⟨o, msgs⟩
      cases o with
      | none => simp only [hf] at hres ⊢; simp [hr, hres, hf]
      | some r =>
          simp only [hf] at hres ⊢
          simp [hr, hres, hf, updateInsights_idem]

theorem runPass_store {ρ : Type} (st : EngineState) (sheet : Option String) (kind : String)
    (f : Table → Option ρ × List String) (g : ρ → Rec) (emptyR : ρ) :
    ((runPass st sheet kind f g emptyR).2).insights = st.insights ∨
      (alookup (storeKey sheet)
          ((alookup kind ((runPass st sheet kind f g emptyR).2).insights).getD []) =
        some (g (runPass st sheet kind f g emptyR).1)) := by
  unfold runPass
  cases hr : resolveData st sheet with
  | none => exact Or.inl rfl
  | some d =>
      rcases hf : f d with ⟨o, msgs⟩
      cases o with
      | none => simp only [hf]; left; trivial
      | some r =>
          simp only [hf]
          right
          simp [updateInsights, alookup_dictInsert, Option.getD_some]

theorem runPass_nodata {ρ : Type} (ins : List (String × List (String × Rec)))
    (out : List String) (sheet : Option String) (kind : String)
    (f : Table → Option ρ × List String) (g : ρ → Rec) (emptyR : ρ) :
    runPass ⟨none, [], ins, out⟩ sheet kind f g emptyR =
      (emptyR, ⟨none, [], ins, out ++ [noDataMsg]⟩) := by
  have hres : resolveData ⟨none, [], ins, out⟩ sheet = none := by
    unfold resolveData
    cases sheet with
    | none => rfl
    | some s => simp [alookup]
  unfold runPass
  rw [hres]

theorem runPass_ghost_sheet {ρ : Type} (st : EngineState) (s : String) (kind : String)
    (f : Table → Option ρ × List String) (g : ρ → Rec) (emptyR : ρ)
    (hlk : alookup s st.sheets = none) :
    (runPass st (some s) kind f g emptyR).1 = (runPass st none kind f g emptyR).1 ∧
      ((runPass st (some s) kind f g emptyR).2).out = ((runPass st none kind f g emptyR).2).out := by
  have hres : resolveData st (some s) = resolveData st none := by
    unfold resolveData
    simp [hlk]
  unfold runPass
  rw [hres]
  cases resolveData st none with
  | none => exact ⟨rfl, rfl⟩
  | some d =>
      rcases hf : f d with ⟨o, msgs⟩
      cases o <;> simp [hf]

/-! ## Statistics lemmas -/

theorem list_sum_zero_of_nonneg (l : List ℚ) (h0 : ∀ x ∈ l, 0 ≤ x) (hs : l.sum = 0) :
    ∀ x ∈ l, x = 0 := by
  induction l with
  | nil => intro x hx; cases hx
  | cons a rest ih =>
      have ha : 0 ≤ a := h0 a (List.mem_cons_self a rest)
      have hrest : 0 ≤ rest.sum := List.sum_nonneg (fun x hx => h0 x (List.mem_cons_of_mem a hx))
      rw [List.sum_cons] at hs
      have ha0 : a = 0 := le_antisymm (by linarith) ha
      have hr0 : rest.sum = 0 := by linarith
      intro x hx
      rcases List.mem_cons.1 hx with h | h
      · rw [h, ha0]
      · exact ih (fun y hy => h0 y (List.mem_cons_of_mem a hy)) hr0 x h

theorem sqDev_nonneg (l : List ℚ) : 0 ≤ sqDev l :=
  List.sum_nonneg (by
    intro x hx
    rcases List.mem_map.1 hx with ⟨y, _, rfl⟩
    exact sq_nonneg _)

theorem list_sum_of_const (l : List ℚ) (v : ℚ) (h : ∀ x ∈ l, x = v) :
    l.sum = v * l.length := by
  induction l with
  | nil => simp
  | cons a rest ih =>
      have ha : a = v := h a (List.mem_cons_self a rest)
      have := ih (fun x hx => h x (List.mem_cons_of_mem a hx))
      rw [List.sum_cons, this, ha, List.length_cons]
      push_cast
      ring

theorem mean_of_const (l : List ℚ) (v : ℚ) (hne : l ≠ []) (h : ∀ x ∈ l, x = v) :
    mean l = v := by
  have hlen : (l.length : ℚ) ≠ 0 := by
    have : l.length ≠ 0 := fun h0 => hne (List.length_eq_zero.1 h0)
    exact_mod_cast this
  rw [mean, list_sum_of_const l v h, mul_div_assoc, div_self hlen, mul_one]

theorem sqDev_of_const (l : List ℚ) (v : ℚ) (h : ∀ x ∈ l, x = v) : sqDev l = 0 := by
  rcases eq_or_ne l [] with rfl | hne
  · simp [sqDev]
  · rw [sqDev]
    apply List.sum_eq_zero
    intro x hx
    rcases List.mem_map.1 hx with ⟨y, hy, rfl⟩
    rw [h y hy, mean_of_const l v hne h]
    ring

theorem eq_mean_of_sqDev_zero (l : List ℚ) (h : sqDev l = 0) :
    ∀ x ∈ l, x = mean l := by
  intro x hx
  have hterm : (x - mean l) ^ 2 = 0 := by
    refine list_sum_zero_of_nonneg _ (fun y hy => ?_) h _ (List.mem_map.2 ⟨x, hx, rfl⟩)
    rcases List.mem_map.1 hy with ⟨z, _, rfl⟩
    exact sq_nonneg _
  have := pow_eq_zero_iff (n := 2) (by norm_num) |>.1 hterm
  linarith [sub_eq_zero.1 this]

theorem pairRows_fst_mem (a b : Column) (x y : ℚ) (h : (x, y) ∈ pairRows a b) :
    x ∈ nonNull a := by
  rcases List.mem_filterMap.1 h with ⟨⟨c1, c2⟩, hmem, hsome⟩
  have hc1 : c1 ∈ a.cells := (List.of_mem_zip hmem).1
  cases hn1 : cellNum c1 with
  | none => rw [hn1] at hsome; cases hn2 : cellNum c2 <;> rw [hn2] at hsome <;> simp at hsome
  | some q1 =>
      cases hn2 : cellNum c2 with
      | none => rw [hn1, hn2] at hsome; simp at hsome
      | some q2 =>
          rw [hn1, hn2] at hsome
          simp only [Option.some.injEq, Prod.mk.injEq] at hsome
          exact List.mem_filterMap.2 ⟨c1, hc1, by rw [hn1, hsome.1]⟩

theorem pairRows_snd_mem (a b : Column) (x y : ℚ) (h : (x, y) ∈ pairRows a b) :
    y ∈ nonNull b := by
  rcases List.mem_filterMap.1 h with ⟨⟨c1, c2⟩, hmem, hsome⟩
  have hc2 : c2 ∈ b.cells := (List.of_mem_zip hmem).2
  cases hn1 : cellNum c1 with
  | none => rw [hn1] at hsome; cases hn2 : cellNum c2 <;> rw [hn2] at hsome <;> simp at hsome
  | some q1 =>
      cases hn2 : cellNum c2 with
      | none => rw [hn1, hn2] at hsome; simp at hsome
      | some q2 =>
          rw [hn1, hn2] at hsome
          simp only [Option.some.injEq, Prod.mk.injEq] at hsome
          exact List.mem_filterMap.2 ⟨c2, hc2, by rw [hn2, hsome.2]⟩

/-- A zero-variance column keeps zero variance on every pairwise-complete
selection of its values: all of them equal its mean. -/
theorem sqDev_sublist_zero (c : Column) (hvar : sqDev (nonNull c) = 0)
    (l : List ℚ) (hsub : ∀ x ∈ l, x ∈ nonNull c) : sqDev l = 0 := by
  exact sqDev_of_const l (mean (nonNull c))
    (fun x hx => eq_mean_of_sqDev_zero (nonNull c) hvar x (hsub x hx))

/-! ## Key-string lemmas -/

/-- A column name that contains no space character; every realistic pandas
column label that makes the `"colA - colB"` keys unambiguous. -/
def NoSpace (s : String) : Prop := ' ' ∉ s.data

instance decNoSpace (s : String) : Decidable (NoSpace s) :=
  inferInstanceAs (Decidable (' ' ∉ s.data))

theorem sepSplit (l₁ l₃ : List Char) (l₂ l₄ : List Char)
    (h₁ : ' ' ∉ l₁) (h₃ : ' ' ∉ l₃)
    (h : l₁ ++ ' ' :: l₂ = l₃ ++ ' ' :: l₄) : l₁ = l₃ ∧ l₂ = l₄ := by
  induction l₁ generalizing l₃ with
  | nil =>
      cases l₃ with
      | nil => simpa using h
      | cons c l₃' =>
          simp only [List.nil_append, List.cons_append, List.cons.injEq] at h
          exact absurd (h.1 ▸ List.mem_cons_self c l₃') (by simpa [← h.1] using h₃)
  | cons a l₁' ih =>
      cases l₃ with
      | nil =>
          simp only [List.nil_append, List.cons_append, List.cons.injEq] at h
          exact absurd (h.1 ▸ List.mem_cons_self a l₁') (by simpa [h.1] using h₁)
      | cons c l₃' =>
          simp only [List.cons_append, List.cons.injEq] at h
          have hrec := ih l₃' (fun hm => h₁ (List.mem_cons_of_mem a hm))
            (fun hm => h₃ (List.mem_cons_of_mem c hm)) h.2
          exact ⟨by rw [h.1, hrec.1], hrec.2⟩

theorem mkKey_inj (a b c d : String) (ha : NoSpace a) (hc : NoSpace c)
    (h : mkKey a b = mkKey c d) : a = c ∧ b = d := by
  have hdata : a.data ++ (' ' :: '-' :: ' ' :: b.data) = c.data ++ (' ' :: '-' :: ' ' :: d.data) := by
    have h' := congrArg String.data h
    simpa [mkKey, String.data_append] using h'
  have := sepSplit a.data c.data ('-' :: ' ' :: b.data) ('-' :: ' ' :: d.data) ha hc hdata
  refine ⟨?_, ?_⟩
  · cases a; cases c; exact congrArg String.mk this.1
  · have hbd : b.data = d.data := by
      have := this.2
      simpa using this
    cases b; cases d; exact congrArg String.mk hbd

/-! ## Pair-enumeration lemmas -/

theorem mem_colPairs_mem {α : Type} (l : List α) (p : α × α) (h : p ∈ colPairs l) :
    p.1 ∈ l ∧ p.2 ∈ l := by
  induction l with
  | nil => cases h
  | cons x xs ih =>
      rw [colPairs, List.mem_append] at h
      rcases h with h | h
      · rcases List.mem_map.1 h with ⟨y, hy, rfl⟩
        exact ⟨List.mem_cons_self x xs, List.mem_cons_of_mem x hy⟩
      · exact ⟨List.mem_cons_of_mem x (ih h).1, List.mem_cons_of_mem x (ih h).2⟩

theorem colPairs_nodup {α : Type} (l : List α) (h : l.Nodup) : (colPairs l).Nodup := by
  induction l with
  | nil => exact List.nodup_nil
  | cons x xs ih =>
      rw [colPairs]
      rcases List.nodup_cons.1 h with ⟨hx, hxs⟩
      refine List.Nodup.append ?_ (ih hxs) ?_
      · exact List.Nodup.map (fun a b hab => by simpa using hab) hxs
      · intro p hp1 hp2
        rcases List.mem_map.1 hp1 with ⟨y, _, rfl⟩
        exact hx ((mem_colPairs_mem xs (x, y) hp2).1)

/-! ## Shape of keyed filterMap results -/

theorem map_fst_filterMap_if {α β : Type} (l : List α) (c : α → Bool)
    (k : α → String) (v : α → β) :
    ((l.filterMap (fun x => if c x then some (k x, v x) else none)).map Prod.fst) =
      (l.filter c).map k := by
  induction l with
  | nil => rfl
  | cons a rest ih =>
      cases h : c a with
      | true => simp [List.filterMap_cons, List.filter_cons, h, ih]
      | false => simp [List.filterMap_cons, List.filter_cons, h, ih]

/-! ## The square-free Pearson comparison and its real-number meaning -/

theorem abs_div_sqrt_le_iff (q v t : ℚ) (hv : 0 < v) :
    ((t : ℝ) ≤ |(q : ℝ)| / Real.sqrt (v : ℝ)) ↔ (t ≤ 0 ∨ t ^ 2 * v ≤ q ^ 2) := by
  have hvR : (0:ℝ) < (v:ℝ) := by exact_mod_cast hv
  have hs : (0:ℝ) < Real.sqrt (v:ℝ) := Real.sqrt_pos.2 hvR
  rw [le_div_iff₀ hs]
  by_cases ht : t ≤ 0
  · constructor
    · intro _
      exact Or.inl ht
    · intro _
      have htR : (t:ℝ) ≤ 0 := by exact_mod_cast ht
      exact (mul_nonpos_of_nonpos_of_nonneg htR (Real.sqrt_nonneg _)).trans (abs_nonneg _)
  · push_neg at ht
    have htR : (0:ℝ) < (t:ℝ) := by exact_mod_cast ht
    constructor
    · intro h
      right
      have hnn : (0:ℝ) ≤ (t:ℝ) * Real.sqrt (v:ℝ) := by positivity
      have hsq := pow_le_pow_left₀ hnn h 2
      rw [mul_pow, Real.sq_sqrt hvR.le, sq_abs] at hsq
      exact_mod_cast hsq
    · rintro (h | h)
      · exact absurd h (not_le.2 ht)
      · have hR : (t:ℝ) ^ 2 * (v:ℝ) ≤ (q:ℝ) ^ 2 := by exact_mod_cast h
        have h1 := Real.sqrt_le_sqrt hR
        rwa [Real.sqrt_mul (sq_nonneg _), Real.sqrt_sq htR.le, Real.sqrt_sq_eq_abs] at h1

theorem absCorrGe_iff_pearson (c : Corr3) (t : ℚ) (hx : 0 ≤ c.vx) (hy : 0 ≤ c.vy) :
    (absCorrGe c t = true) ↔
      (0 < c.vx ∧ 0 < c.vy ∧
        (t : ℝ) ≤ |(c.cov : ℝ)| / Real.sqrt ((c.vx : ℝ) * (c.vy : ℝ))) := by
  unfold absCorrGe
  simp only [Bool.and_eq_true, Bool.or_eq_true, decide_eq_true_eq]
  constructor
  · rintro ⟨⟨hx0, hy0⟩, hcomp⟩
    have hvx : 0 < c.vx := lt_of_le_of_ne hx (Ne.symm hx0)
    have hvy : 0 < c.vy := lt_of_le_of_ne hy (Ne.symm hy0)
    have hv : 0 < c.vx * c.vy := mul_pos hvx hvy
    refine ⟨hvx, hvy, ?_⟩
    rw [show ((c.vx:ℝ) * (c.vy:ℝ)) = ((c.vx * c.vy : ℚ) : ℝ) by push_cast; ring]
    exact (abs_div_sqrt_le_iff c.cov (c.vx * c.vy) t hv).2 hcomp
  · rintro ⟨hvx, hvy, hle⟩
    have hv : 0 < c.vx * c.vy := mul_pos hvx hvy
    refine ⟨⟨ne_of_gt hvx, ne_of_gt hvy⟩, ?_⟩
    apply (abs_div_sqrt_le_iff c.cov (c.vx * c.vy) t hv).1
    rw [show (((c.vx * c.vy : ℚ)) : ℝ) = (c.vx:ℝ) * (c.vy:ℝ) by push_cast; ring]
    exact hle

theorem colPairs_asymm {α : Type} (l : List α) (h : l.Nodup) (a b : α)
    (h1 : (a, b) ∈ colPairs l) (h2 : (b, a) ∈ colPairs l) : False := by
  induction l generalizing a b with
  | nil => cases h1
  | cons x xs ih =>
      rcases List.nodup_cons.1 h with ⟨hx, hxs⟩
      rw [colPairs, List.mem_append] at h1 h2
      rcases h1 with h1 | h1
      · rcases List.mem_map.1 h1 with ⟨y, hy, heq⟩
        injection heq with hxa hyb
        subst hxa
        subst hyb
        rcases h2 with h2 | h2
        · rcases List.mem_map.1 h2 with ⟨z, hz, heq2⟩
          injection heq2 with hxy hza
          exact hx (hxy ▸ hy)
        · exact hx ((mem_colPairs_mem xs _ h2).2)
      · rcases h2 with h2 | h2
        · rcases List.mem_map.1 h2 with ⟨z, hz, heq2⟩
          injection heq2 with hxb hza
          exact hx (hxb ▸ (mem_colPairs_mem xs _ h1).2)
        · exact ih hxs a b h1 h2

theorem colPairs_irrefl {α : Type} (l : List α) (h : l.Nodup) (a : α) :
    (a, a) ∉ colPairs l := by
  induction l generalizing a with
  | nil => intro h1; cases h1
  | cons x xs ih =>
      rcases List.nodup_cons.1 h with ⟨hx, hxs⟩
      intro h1
      rw [colPairs, List.mem_append] at h1
      rcases h1 with h1 | h1
      · rcases List.mem_map.1 h1 with ⟨y, hy, heq⟩
        injection heq with hxa hya
        subst hxa
        exact hx (hya ▸ hy)
      · exact ih hxs a h1

/-- C1: for every table and threshold, the correlation pass returns exactly
the unordered pairs of numeric columns whose Pearson correlation coefficient
has absolute value at least the threshold (the bool `absCorrGe` is proved
equal to the real-valued comparison in the last conjunct), each keyed
`"colA - colB"` with `colA` strictly before `colB` in column order; no
duplicate, reversed, or diagonal pair appears, and with fewer than two
numeric columns the result is the empty early return. -/
theorem find_correlations_exact_pairs (t : Table) (thr : ℚ)
    (hnd : ((numerical_cols t).map Column.name).Nodup)
    (hsp : ∀ c ∈ numerical_cols t, NoSpace c.name) :
    ((numerical_cols t).length < 2 → (find_correlations_table t thr).1 = none) ∧
    (∀ r, (find_correlations_table t thr).1 = some r →
      (r.map Prod.fst =
        ((colPairs (numerical_cols t)).filter
          (fun p => absCorrGe (corr3 p.1 p.2) thr)).map
            (fun p => mkKey p.1.name p.2.name)) ∧
      (∀ a b, a ∈ numerical_cols t → b ∈ numerical_cols t →
        (mkKey a.name b.name ∈ r.map Prod.fst ↔
          ((a, b) ∈ colPairs (numerical_cols t) ∧ absCorrGe (corr3 a b) thr = true))) ∧
      (r.map Prod.fst).Nodup ∧
      (∀ a b, a ∈ numerical_cols t → b ∈ numerical_cols t →
        ¬(mkKey a.name b.name ∈ r.map Prod.fst ∧ mkKey b.name a.name ∈ r.map Prod.fst)) ∧
      (∀ a, a ∈ numerical_cols t → mkKey a.name a.name ∉ r.map Prod.fst)) ∧
    (∀ a b : Column, absCorrGe (corr3 a b) thr = true ↔
      (0 < (corr3 a b).vx ∧ 0 < (corr3 a b).vy ∧
        (thr : ℝ) ≤ |((corr3 a b).cov : ℝ)| /
          Real.sqrt (((corr3 a b).vx : ℝ) * ((corr3 a b).vy : ℝ)))) := by
  have hnodupCols : (numerical_cols t).Nodup := List.Nodup.of_map Column.name hnd
  refine ⟨?_, ?_, ?_⟩
  · intro hlt
    simp [find_correlations_table, hlt]
  · intro r hr
    have hr' : r = (colPairs (numerical_cols t)).filterMap (fun p =>
        if absCorrGe (corr3 p.1 p.2) thr
        then some (mkKey p.1.name p.2.name, corr3 p.1 p.2) else none) := by
      by_cases h2 : (numerical_cols t).length < 2
      · simp [find_correlations_table, h2] at hr
      · simp only [find_correlations_table, if_neg h2] at hr
        exact (Option.some.injEq _ _ ▸ hr).symm
    have hkeys : r.map Prod.fst =
        ((colPairs (numerical_cols t)).filter
          (fun p => absCorrGe (corr3 p.1 p.2) thr)).map (fun p => mkKey p.1.name p.2.name) := by
      rw [hr']
      exact map_fst_filterMap_if (colPairs (numerical_cols t))
        (fun p => absCorrGe (corr3 p.1 p.2) thr)
        (fun p => mkKey p.1.name p.2.name) (fun p => corr3 p.1 p.2)
    have hiff : ∀ a b, a ∈ numerical_cols t → b ∈ numerical_cols t →
        (mkKey a.name b.name ∈ r.map Prod.fst ↔
          ((a, b) ∈ colPairs (numerical_cols t) ∧ absCorrGe (corr3 a b) thr = true)) := by
      intro a b ha hb
      rw [hkeys]
      constructor
      · intro hmem
        rcases List.mem_map.1 hmem with ⟨p, hpf, hpk⟩
        rcases List.mem_filter.1 hpf with ⟨hpc, hpred⟩
        have hp1 : p.1 ∈ numerical_cols t := (mem_colPairs_mem _ p hpc).1
        have hp2 : p.2 ∈ numerical_cols t := (mem_colPairs_mem _ p hpc).2
        have hinj := mkKey_inj p.1.name p.2.name a.name b.name
          (hsp p.1 hp1) (hsp a ha) hpk
        have he1 : p.1 = a := List.inj_on_of_nodup_map hnd hp1 ha hinj.1
        have he2 : p.2 = b := List.inj_on_of_nodup_map hnd hp2 hb hinj.2
        have hpab : p = (a, b) := by
          rcases p with ⟨p1, p2⟩
          simp only at he1 he2
          rw [he1, he2]
        rw [hpab] at hpc hpred
        exact ⟨hpc, hpred⟩
      · rintro ⟨hpair, hpred⟩
        refine List.mem_map.2 ⟨(a, b), List.mem_filter.2 ⟨hpair, hpred⟩, rfl⟩
    refine ⟨hkeys, hiff, ?_, ?_, ?_⟩
    · rw [hkeys]
      refine List.Nodup.map_on ?_ (List.Nodup.filter _ (colPairs_nodup _ hnodupCols))
      intro p hp q hq hpq
      have hpc := (List.mem_filter.1 hp).1
      have hqc := (List.mem_filter.1 hq).1
      have hp1 := (mem_colPairs_mem _ p hpc).1
      have hq1 := (mem_colPairs_mem _ q hqc).1
      have hp2 := (mem_colPairs_mem _ p hpc).2
      have hq2 := (mem_colPairs_mem _ q hqc).2
      have hinj := mkKey_inj p.1.name p.2.name q.1.name q.2.name
        (hsp p.1 hp1) (hsp q.1 hq1) hpq
      have he1 : p.1 = q.1 := List.inj_on_of_nodup_map hnd hp1 hq1 hinj.1
      have he2 : p.2 = q.2 := List.inj_on_of_nodup_map hnd hp2 hq2 hinj.2
      rcases p with ⟨p1, p2⟩
      rcases q with ⟨q1, q2⟩
      simp only at he1 he2
      rw [he1, he2]
    · intro a b ha hb hboth
      have h1 := ((hiff a b ha hb).1 hboth.1).1
      have h2 := ((hiff b a hb ha).1 hboth.2).1
      exact colPairs_asymm _ hnodupCols a b h1 h2
    · intro a ha hmem
      have h1 := ((hiff a a ha ha).1 hmem).1
      exact colPairs_irrefl _ hnodupCols a h1
  · intro a b
    refine absCorrGe_iff_pearson (corr3 a b) thr ?_ ?_
    · show 0 ≤ sqDev ((pairRows a b).map Prod.fst)
      exact sqDev_nonneg _
    · show 0 ≤ sqDev ((pairRows a b).map Prod.snd)
      exact sqDev_nonneg _

/-- The two perfectly anti-correlated columns of the spec's scenario. -/
def corrWitnessTable : Table :=
  [{ name := "x", dtype := DType.numeric, cells := [Cell.num 1, Cell.num 2, Cell.num 3] },
   { name := "y", dtype := DType.numeric, cells := [Cell.num 3, Cell.num 2, Cell.num 1] }]

/-- Witness for `find_correlations_exact_pairs` at the anti-correlated
two-column table with threshold 1/2, hypotheses discharged by computation. -/
theorem find_correlations_exact_pairs_witness :
    (((numerical_cols corrWitnessTable).map Column.name).Nodup) ∧
    (∀ c ∈ numerical_cols corrWitnessTable, NoSpace c.name) ∧
    (((numerical_cols corrWitnessTable).length < 2 →
        (find_correlations_table corrWitnessTable (1/2)).1 = none) ∧
      (∀ r, (find_correlations_table corrWitnessTable (1/2)).1 = some r →
        (r.map Prod.fst =
          ((colPairs (numerical_cols corrWitnessTable)).filter
            (fun p => absCorrGe (corr3 p.1 p.2) (1/2))).map
              (fun p => mkKey p.1.name p.2.name)) ∧
        (∀ a b, a ∈ numerical_cols corrWitnessTable → b ∈ numerical_cols corrWitnessTable →
          (mkKey a.name b.name ∈ r.map Prod.fst ↔
            ((a, b) ∈ colPairs (numerical_cols corrWitnessTable) ∧
              absCorrGe (corr3 a b) (1/2) = true))) ∧
        (r.map Prod.fst).Nodup ∧
        (∀ a b, a ∈ numerical_cols corrWitnessTable → b ∈ numerical_cols corrWitnessTable →
          ¬(mkKey a.name b.name ∈ r.map Prod.fst ∧ mkKey b.name a.name ∈ r.map Prod.fst)) ∧
        (∀ a, a ∈ numerical_cols corrWitnessTable → mkKey a.name a.name ∉ r.map Prod.fst)) ∧
      (∀ a b : Column, absCorrGe (corr3 a b) (1/2) = true ↔
        (0 < (corr3 a b).vx ∧ 0 < (corr3 a b).vy ∧
          ((1/2 : ℚ) : ℝ) ≤ |((corr3 a b).cov : ℝ)| /
            Real.sqrt (((corr3 a b).vx : ℝ) * ((corr3 a b).vy : ℝ))))) :=
  ⟨by decide, by decide,
    find_correlations_exact_pairs corrWitnessTable (1/2) (by decide) (by decide)⟩

theorem find_correlations_some_shape (t : Table) (thr : ℚ) (r : List (String × Corr3))
    (hr : (find_correlations_table t thr).1 = some r) :
    r = (colPairs (numerical_cols t)).filterMap (fun p =>
      if absCorrGe (corr3 p.1 p.2) thr
      then some (mkKey p.1.name p.2.name, corr3 p.1 p.2) else none) := by
  by_cases h2 : (numerical_cols t).length < 2
  · simp [find_correlations_table, h2] at hr
  · simp only [find_correlations_table, if_neg h2] at hr
    exact (Option.some.injEq _ _ ▸ hr).symm

/-- C4: a numeric column whose non-null values have zero variance satisfies
the encoded coefficient filter with no other column (the pandas coefficient
is NaN on every such pair and `abs(NaN) >= t` is false), so no key of the
correlation result mentions it and no division by zero is ever performed. -/
theorem correlation_zero_variance_excluded (t : Table) (thr : ℚ) (c : Column)
    (hc : c ∈ numerical_cols t)
    (hvar : sqDev (nonNull c) = 0)
    (hnd : ((numerical_cols t).map Column.name).Nodup)
    (hsp : ∀ d ∈ numerical_cols t, NoSpace d.name) :
    (∀ d : Column, absCorrGe (corr3 c d) thr = false ∧ absCorrGe (corr3 d c) thr = false) ∧
    (∀ r, (find_correlations_table t thr).1 = some r →
      ∀ s : String, NoSpace s →
        mkKey c.name s ∉ r.map Prod.fst ∧ mkKey s c.name ∉ r.map Prod.fst) := by
  have hfalse : ∀ d : Column,
      absCorrGe (corr3 c d) thr = false ∧ absCorrGe (corr3 d c) thr = false := by
    intro d
    have hvx : sqDev ((pairRows c d).map Prod.fst) = 0 := by
      refine sqDev_sublist_zero c hvar _ ?_
      intro x hx
      rcases List.mem_map.1 hx with ⟨⟨u, w⟩, hmem, rfl⟩
      exact pairRows_fst_mem c d u w hmem
    have hvy : sqDev ((pairRows d c).map Prod.snd) = 0 := by
      refine sqDev_sublist_zero c hvar _ ?_
      intro x hx
      rcases List.mem_map.1 hx with ⟨⟨u, w⟩, hmem, rfl⟩
      exact pairRows_snd_mem d c u w hmem
    constructor
    · have : (corr3 c d).vx = 0 := hvx
      simp [absCorrGe, this]
    · have : (corr3 d c).vy = 0 := hvy
      simp [absCorrGe, this]
  refine ⟨hfalse, ?_⟩
  intro r hr s hsfree
  have hr' := find_correlations_some_shape t thr r hr
  have hkeys : r.map Prod.fst =
      ((colPairs (numerical_cols t)).filter
        (fun p => absCorrGe (corr3 p.1 p.2) thr)).map (fun p => mkKey p.1.name p.2.name) := by
    rw [hr']
    exact map_fst_filterMap_if (colPairs (numerical_cols t))
      (fun p => absCorrGe (corr3 p.1 p.2) thr)
      (fun p => mkKey p.1.name p.2.name) (fun p => corr3 p.1 p.2)
  constructor
  · intro hmem
    rw [hkeys] at hmem
    rcases List.mem_map.1 hmem with ⟨p, hpf, hpk⟩
    rcases List.mem_filter.1 hpf with ⟨hpc, hpred⟩
    have hp1 : p.1 ∈ numerical_cols t := (mem_colPairs_mem _ p hpc).1
    have hinj := mkKey_inj p.1.name p.2.name c.name s (hsp p.1 hp1) (hsp c hc) hpk
    have he1 : p.1 = c := List.inj_on_of_nodup_map hnd hp1 hc hinj.1
    rw [he1] at hpred
    rw [(hfalse p.2).1] at hpred
    cases hpred
  · intro hmem
    rw [hkeys] at hmem
    rcases List.mem_map.1 hmem with ⟨p, hpf, hpk⟩
    rcases List.mem_filter.1 hpf with ⟨hpc, hpred⟩
    have hp1 : p.1 ∈ numerical_cols t := (mem_colPairs_mem _ p hpc).1
    have hp2 : p.2 ∈ numerical_cols t := (mem_colPairs_mem _ p hpc).2
    have hinj := mkKey_inj p.1.name p.2.name s c.name (hsp p.1 hp1) hsfree hpk
    have he2 : p.2 = c := List.inj_on_of_nodup_map hnd hp2 hc hinj.2
    rw [he2] at hpred
    rw [(hfalse p.1).2] at hpred
    cases hpred

/-- A constant (zero-variance) numeric column. -/
def zeroVarColumn : Column :=
  { name := "k", dtype := DType.numeric, cells := [Cell.num 5, Cell.num 5, Cell.num 5] }

/-- A table holding the constant column next to two ordinary numeric ones. -/
def zeroVarTable : Table :=
  [zeroVarColumn,
   { name := "y", dtype := DType.numeric, cells := [Cell.num 1, Cell.num 2, Cell.num 3] },
   { name := "z", dtype := DType.numeric, cells := [Cell.num 1, Cell.num 3, Cell.num 2] }]

/-- Witness for `correlation_zero_variance_excluded` at the concrete
three-column table, hypotheses discharged by computation. -/
theorem correlation_zero_variance_excluded_witness :
    (zeroVarColumn ∈ numerical_cols zeroVarTable) ∧
    (sqDev (nonNull zeroVarColumn) = 0) ∧
    (((numerical_cols zeroVarTable).map Column.name).Nodup) ∧
    (∀ d ∈ numerical_cols zeroVarTable, NoSpace d.name) ∧
    ((∀ d : Column, absCorrGe (corr3 zeroVarColumn d) (1/2) = false ∧
        absCorrGe (corr3 d zeroVarColumn) (1/2) = false) ∧
      (∀ r, (find_correlations_table zeroVarTable (1/2)).1 = some r →
        ∀ s : String, NoSpace s →
          mkKey zeroVarColumn.name s ∉ r.map Prod.fst ∧
            mkKey s zeroVarColumn.name ∉ r.map Prod.fst)) :=
  ⟨by simp [numerical_cols, zeroVarTable, zeroVarColumn],
   by norm_num [sqDev, mean, nonNull, cellNum, zeroVarColumn, List.filterMap_cons],
   by decide, by decide,
   correlation_zero_variance_excluded zeroVarTable (1/2) zeroVarColumn
     (by simp [numerical_cols, zeroVarTable, zeroVarColumn])
     (by norm_num [sqDev, mean, nonNull, cellNum, zeroVarColumn, List.filterMap_cons])
     (by decide) (by decide)⟩

theorem outlierEntryFor_name (method : String) (thr : ℚ) (c : Column)
    (nm : String) (e : OutlierEntry) (h : outlierEntryFor method thr c = some (nm, e)) :
    nm = c.name := by
  simp only [outlierEntryFor] at h
  rcases ho : (outlierColResult method thr (nonNull c)).1 with _ | flagged
  · simp only [ho] at h
    cases h
  · simp only [ho] at h
    by_cases hfl : flagged = []
    · rw [if_pos hfl] at h; cases h
    · rw [if_neg hfl] at h
      injection h with h'
      exact (congrArg Prod.fst h').symm

theorem outlierEntryFor_zscore_const (thr : ℚ) (c : Column)
    (h2 : 2 ≤ (nonNull c).length) (hvar : sqDev (nonNull c) = 0) :
    outlierEntryFor "zscore" thr c = none := by
  have hz : zscoreOutliers (nonNull c) thr = none := by
    unfold zscoreOutliers
    rw [if_neg (by omega : ¬((nonNull c).length < 2)), if_pos hvar]
  unfold outlierEntryFor outlierColResult
  simp [hz]

theorem identify_outliers_some_shape (t : Table) (method : String) (thr : ℚ)
    (r : List (String × OutlierEntry))
    (hr : (identify_outliers_table t method thr).1 = some r) :
    r = (numerical_cols t).filterMap (outlierEntryFor method thr) := by
  by_cases hn : numerical_cols t = []
  · simp [identify_outliers_table, hn] at hr
  · simp only [identify_outliers_table, if_neg hn] at hr
    exact (Option.some.injEq _ _ ▸ hr).symm

/-- C5: with the zscore method, a numeric column whose non-null values have
standard deviation zero (at least two values, all equal) is skipped
entirely: its name never appears in the outlier result, nothing is divided
by the zero std, and no error is raised (the pass stays total). -/
theorem zscore_zero_std_skipped (t : Table) (thr : ℚ) (c : Column)
    (hc : c ∈ numerical_cols t)
    (h2 : 2 ≤ (nonNull c).length)
    (hvar : sqDev (nonNull c) = 0)
    (hnd : ((numerical_cols t).map Column.name).Nodup) :
    ∀ r, (identify_outliers_table t "zscore" thr).1 = some r →
      c.name ∉ r.map Prod.fst := by
  intro r hr hmem
  rw [identify_outliers_some_shape t "zscore" thr r hr] at hmem
  rcases List.mem_map.1 hmem with ⟨pe, hpe, hnm⟩
  rcases List.mem_filterMap.1 hpe with ⟨c', hc', hfc'⟩
  rcases pe with ⟨nm, e⟩
  have hname : nm = c'.name := outlierEntryFor_name _ _ _ _ _ hfc'
  have heq : c'.name = c.name := by rw [← hname]; exact hnm
  have hcc : c' = c := List.inj_on_of_nodup_map hnd hc' hc heq
  rw [hcc, outlierEntryFor_zscore_const thr c h2 hvar] at hfc'
  cases hfc'

/-- A two-row constant numeric column (sample std exactly zero). -/
def constColumn : Column :=
  { name := "k", dtype := DType.numeric, cells := [Cell.num 7, Cell.num 7] }

/-- A table holding the constant column next to an ordinary numeric one. -/
def constTable : Table :=
  [constColumn,
   { name := "v", dtype := DType.numeric, cells := [Cell.num 1, Cell.num 9] }]

/-- Witness for `zscore_zero_std_skipped` at the concrete two-column table
with threshold 3, hypotheses discharged by computation. -/
theorem zscore_zero_std_skipped_witness :
    (constColumn ∈ numerical_cols constTable) ∧
    (2 ≤ (nonNull constColumn).length) ∧
    (sqDev (nonNull constColumn) = 0) ∧
    (((numerical_cols constTable).map Column.name).Nodup) ∧
    (∀ r, (identify_outliers_table constTable "zscore" 3).1 = some r →
      constColumn.name ∉ r.map Prod.fst) :=
  ⟨by simp [numerical_cols, constTable, constColumn],
   by norm_num [nonNull, cellNum, constColumn, List.filterMap_cons],
   by norm_num [sqDev, mean, nonNull, cellNum, constColumn, List.filterMap_cons],
   by decide,
   zscore_zero_std_skipped constTable 3 constColumn
     (by simp [numerical_cols, constTable, constColumn])
     (by norm_num [nonNull, cellNum, constColumn, List.filterMap_cons])
     (by norm_num [sqDev, mean, nonNull, cellNum, constColumn, List.filterMap_cons])
     (by decide)⟩

/-- C8: an unrecognized method string makes the outlier pass compute exactly
the IQR result for the same table and threshold (the final else branch is
the IQR code), the pass stays total (no error), and whenever a numeric
column exists the unknown-method diagnostic is printed. -/
theorem unknown_method_falls_back (t : Table) (method : String) (thr : ℚ)
    (h1 : method ≠ "iqr") (h2 : method ≠ "zscore") :
    (identify_outliers_table t method thr).1 = (identify_outliers_table t "iqr" thr).1 ∧
    (numerical_cols t ≠ [] →
      ("Unknown method: " ++ method ++ ". Using IQR method instead.") ∈
        (identify_outliers_table t method thr).2) := by
  have hcol : ∀ xs, outlierColResult method thr xs =
      (some (iqrOutliers xs thr),
       ["Unknown method: " ++ method ++ ". Using IQR method instead."]) := by
    intro xs
    unfold outlierColResult
    rw [if_neg h1, if_neg h2]
  have hcoliqr : ∀ xs, outlierColResult "iqr" thr xs = (some (iqrOutliers xs thr), []) := by
    intro xs
    unfold outlierColResult
    simp
  have hfun : outlierEntryFor method thr = outlierEntryFor "iqr" thr := by
    funext c
    simp only [outlierEntryFor]
    rw [hcol, hcoliqr]
  constructor
  · by_cases hn : numerical_cols t = []
    · simp [identify_outliers_table, hn]
    · simp only [identify_outliers_table, if_neg hn]
      rw [hfun]
  · intro hn
    simp only [identify_outliers_table, if_neg hn]
    rcases hcols : numerical_cols t with _ | ⟨c0, rest⟩
    · exact absurd hcols hn
    · apply List.mem_flatten.2
      refine ⟨(outlierColResult method thr (nonNull c0)).2, ?_, ?_⟩
      · exact List.mem_map.2 ⟨c0, List.mem_cons_self c0 rest, rfl⟩
      · rw [hcol]
        exact List.mem_singleton.2 rfl

/-- Witness for `unknown_method_falls_back`: the unrecognized method string
`"median"` on a concrete numeric table. -/
theorem unknown_method_falls_back_witness :
    ("median" ≠ "iqr") ∧ ("median" ≠ "zscore") ∧
    ((identify_outliers_table constTable "median" (3/2)).1 =
        (identify_outliers_table constTable "iqr" (3/2)).1 ∧
      (numerical_cols constTable ≠ [] →
        ("Unknown method: " ++ "median" ++ ". Using IQR method instead.") ∈
          (identify_outliers_table constTable "median" (3/2)).2)) :=
  ⟨by decide, by decide,
   unknown_method_falls_back constTable "median" (3/2) (by decide) (by decide)⟩

/-- C6: re-running any of the five passes with identical arguments on the
unmodified engine state returns an identical record and leaves the insight
accumulation exactly as after one run; the final two conjuncts exhibit the
last-write-wins overwrite: unless the pass took an early empty return, the
(pass kind, sheet key) slot of the accumulation holds exactly the record
just computed, whatever was stored there before. -/
theorem passes_idempotent (st : EngineState) (sheet : Option String)
    (method : String) (thr thrC : ℚ) (top_n : ℕ)
    (ps : String → Option ℤ) (pn : ℚ → Option ℤ) :
    ((generate_summary_statistics (generate_summary_statistics st sheet).2 sheet).1 =
        (generate_summary_statistics st sheet).1 ∧
      ((generate_summary_statistics (generate_summary_statistics st sheet).2 sheet).2).insights =
        ((generate_summary_statistics st sheet).2).insights) ∧
    ((find_correlations (find_correlations st sheet thrC).2 sheet thrC).1 =
        (find_correlations st sheet thrC).1 ∧
      ((find_correlations (find_correlations st sheet thrC).2 sheet thrC).2).insights =
        ((find_correlations st sheet thrC).2).insights) ∧
    ((identify_outliers (identify_outliers st sheet method thr).2 sheet method thr).1 =
        (identify_outliers st sheet method thr).1 ∧
      ((identify_outliers (identify_outliers st sheet method thr).2 sheet method thr).2).insights =
        ((identify_outliers st sheet method thr).2).insights) ∧
    ((analyze_categorical_data (analyze_categorical_data st sheet top_n).2 sheet top_n).1 =
        (analyze_categorical_data st sheet top_n).1 ∧
      ((analyze_categorical_data (analyze_categorical_data st sheet top_n).2 sheet top_n).2).insights =
        ((analyze_categorical_data st sheet top_n).2).insights) ∧
    ((analyze_date_columns ps pn (analyze_date_columns ps pn st sheet).2 sheet).1 =
        (analyze_date_columns ps pn st sheet).1 ∧
      ((analyze_date_columns ps pn (analyze_date_columns ps pn st sheet).2 sheet).2).insights =
        ((analyze_date_columns ps pn st sheet).2).insights) ∧
    (((identify_outliers st sheet method thr).2).insights = st.insights ∨
      alookup (storeKey sheet)
          ((alookup "outliers" ((identify_outliers st sheet method thr).2).insights).getD []) =
        some (Rec.outl (identify_outliers st sheet method thr).1)) ∧
    (((find_correlations st sheet thrC).2).insights = st.insights ∨
      alookup (storeKey sheet)
          ((alookup "correlations" ((find_correlations st sheet thrC).2).insights).getD []) =
        some (Rec.corr (find_correlations st sheet thrC).1)) :=
  ⟨runPass_idem st sheet _ _ _ _,
   runPass_idem st sheet _ _ _ _,
   runPass_idem st sheet _ _ _ _,
   runPass_idem st sheet _ _ _ _,
   runPass_idem st sheet _ _ _ _,
   runPass_store st sheet _ _ _ _,
   runPass_store st sheet _ _ _ _⟩

/-- C9: every pass invoked before any table has been loaded (no default
dataframe, empty sheet collection) returns its empty result, appends exactly
the no-data diagnostic, stores nothing, and cannot raise (the model is a
total function). -/
theorem passes_no_data_empty (ins : List (String × List (String × Rec)))
    (out : List String) (sheet : Option String) (method : String)
    (thr thrC : ℚ) (top_n : ℕ) (ps : String → Option ℤ) (pn : ℚ → Option ℤ) :
    generate_summary_statistics ⟨none, [], ins, out⟩ sheet =
      ({ numerical_columns := [], statistics := [] }, ⟨none, [], ins, out ++ [noDataMsg]⟩) ∧
    find_correlations ⟨none, [], ins, out⟩ sheet thrC =
      ([], ⟨none, [], ins, out ++ [noDataMsg]⟩) ∧
    identify_outliers ⟨none, [], ins, out⟩ sheet method thr =
      ([], ⟨none, [], ins, out ++ [noDataMsg]⟩) ∧
    analyze_categorical_data ⟨none, [], ins, out⟩ sheet top_n =
      ([], ⟨none, [], ins, out ++ [noDataMsg]⟩) ∧
    analyze_date_columns ps pn ⟨none, [], ins, out⟩ sheet =
      ([], ⟨none, [], ins, out ++ [noDataMsg]⟩) :=
  ⟨runPass_nodata ins out sheet _ _ _ _,
   runPass_nodata ins out sheet _ _ _ _,
   runPass_nodata ins out sheet _ _ _ _,
   runPass_nodata ins out sheet _ _ _ _,
   runPass_nodata ins out sheet _ _ _ _⟩

/-- The 4-row scenario column of the spec. -/
def iqrColumn : Column :=
  { name := "a", dtype := DType.numeric,
    cells := [Cell.num 1, Cell.num 2, Cell.num 3, Cell.num 100] }

/-- The scenario column alone in a table. -/
def iqrTable : Table := [iqrColumn]

/-- The 5-row second scenario column of the spec. -/
def iqrColumn2 : Column :=
  { name := "b", dtype := DType.numeric,
    cells := [Cell.num 1, Cell.num 2, Cell.num 3, Cell.num 4, Cell.num 1000] }

/-- The second scenario column alone in a table. -/
def iqrTable2 : Table := [iqrColumn2]

/-- C2 counterexample: on `[1, 2, 3, 100]` the source's linear-interpolation
quantile gives Q3 = 27.25, not the claimed 51.5, and with threshold 1.5 the
value 100 IS flagged: the column appears in the outlier mapping instead of
being absent. -/
theorem iqr_scenario_counterexample :
    quantile [1, 2, 3, 100] (1/4) = 7/4 ∧
    quantile [1, 2, 3, 100] (3/4) = 109/4 ∧
    ¬((109 : ℚ)/4 = 103/2) ∧
    (identify_outliers_table iqrTable "iqr" (3/2)).1 =
      some [("a", { count := 1, percentage := 25, values := [100] })] := by
  have hq1 : quantile [1, 2, 3, 100] (1/4) = 7/4 := by
    norm_num [quantile, sortAsc, sortBy, insertBy]
  have hq3 : quantile [1, 2, 3, 100] (3/4) = 109/4 := by
    norm_num [quantile, sortAsc, sortBy, insertBy]
    simp
    norm_num
  have hxs : nonNull iqrColumn = [1, 2, 3, 100] := by
    norm_num [nonNull, iqrColumn, cellNum, List.filterMap_cons]
  have hflag : iqrOutliers [1, 2, 3, 100] (3/2) = [100] := by
    simp only [iqrOutliers, hq1, hq3]
    norm_num [List.filter]
  have hentry : outlierEntryFor "iqr" (3/2) iqrColumn =
      some ("a", { count := 1, percentage := 25, values := [100] }) := by
    have hname : iqrColumn.name = "a" := rfl
    simp [outlierEntryFor, outlierColResult, hxs, hflag, mkOutlierEntry, hname]
    norm_num
  have hcols : numerical_cols iqrTable = [iqrColumn] := by
    simp [numerical_cols, iqrTable, iqrColumn]
  refine ⟨hq1, hq3, by norm_num, ?_⟩
  simp [identify_outliers_table, hcols, hentry]

/-- C2 amended: exact arithmetic of the source's IQR pass on the spec's
scenario: Q1 = 1.75 but Q3 = 27.25 (linear interpolation), IQR = 25.5,
upper bound 65.5, so the value 100 IS flagged (count 1, 25 percent); on
`[1, 2, 3, 4, 1000]` the value 1000 is flagged as the claim states. -/
theorem iqr_scenario_amended :
    quantile [1, 2, 3, 100] (1/4) = 7/4 ∧
    quantile [1, 2, 3, 100] (3/4) = 109/4 ∧
    ((109 : ℚ)/4 - 7/4 = 51/2) ∧
    ((109 : ℚ)/4 + (3/2) * (51/2) = 131/2) ∧
    (identify_outliers_table iqrTable "iqr" (3/2)).1 =
      some [("a", { count := 1, percentage := 25, values := [100] })] ∧
    quantile [1, 2, 3, 4, 1000] (1/4) = 2 ∧
    quantile [1, 2, 3, 4, 1000] (3/4) = 4 ∧
    (identify_outliers_table iqrTable2 "iqr" (3/2)).1 =
      some [("b", { count := 1, percentage := 20, values := [1000] })] := by
  have hq1 : quantile [1, 2, 3, 100] (1/4) = 7/4 := by
    norm_num [quantile, sortAsc, sortBy, insertBy]
  have hq3 : quantile [1, 2, 3, 100] (3/4) = 109/4 := by
    norm_num [quantile, sortAsc, sortBy, insertBy]
    simp
    norm_num
  have hxs : nonNull iqrColumn = [1, 2, 3, 100] := by
    norm_num [nonNull, iqrColumn, cellNum, List.filterMap_cons]
  have hflag : iqrOutliers [1, 2, 3, 100] (3/2) = [100] := by
    simp only [iqrOutliers, hq1, hq3]
    norm_num [List.filter]
  have hentry : outlierEntryFor "iqr" (3/2) iqrColumn =
      some ("a", { count := 1, percentage := 25, values := [100] }) := by
    have hname : iqrColumn.name = "a" := rfl
    simp [outlierEntryFor, outlierColResult, hxs, hflag, mkOutlierEntry, hname]
    norm_num
  have hcols : numerical_cols iqrTable = [iqrColumn] := by
    simp [numerical_cols, iqrTable, iqrColumn]
  have hq1b : quantile [1, 2, 3, 4, 1000] (1/4) = 2 := by
    norm_num [quantile, sortAsc, sortBy, insertBy]
  have hq3b : quantile [1, 2, 3, 4, 1000] (3/4) = 4 := by
    norm_num [quantile, sortAsc, sortBy, insertBy]
    simp
  have hxsb : nonNull iqrColumn2 = [1, 2, 3, 4, 1000] := by
    norm_num [nonNull, iqrColumn2, cellNum, List.filterMap_cons]
  have hflagb : iqrOutliers [1, 2, 3, 4, 1000] (3/2) = [1000] := by
    simp only [iqrOutliers, hq1b, hq3b]
    norm_num [List.filter]
  have hentryb : outlierEntryFor "iqr" (3/2) iqrColumn2 =
      some ("b", { count := 1, percentage := 20, values := [1000] }) := by
    have hname : iqrColumn2.name = "b" := rfl
    simp [outlierEntryFor, outlierColResult, hxsb, hflagb, mkOutlierEntry, hname]
    norm_num
  have hcolsb : numerical_cols iqrTable2 = [iqrColumn2] := by
    simp [numerical_cols, iqrTable2, iqrColumn2]
  refine ⟨hq1, hq3, by norm_num, by norm_num, ?_, hq1b, hq3b, ?_⟩
  · simp [identify_outliers_table, hcols, hentry]
  · simp [identify_outliers_table, hcolsb, hentryb]

theorem dateEntryFor_object (ps : String → Option ℤ) (pn : ℚ → Option ℤ)
    (c : Column) (hdt : ¬(c.dtype = DType.datetime)) :
    dateEntryFor ps pn c =
      (if 0 < c.cells.length ∧
          (((c.cells.map (parseCell ps pn)).countP Option.isSome : ℚ) / c.cells.length) < 7/10
       then none
       else some (c.name, mkDateEntry (c.cells.map (parseCell ps pn)))) := by
  simp only [dateEntryFor, if_neg hdt]

theorem dateEntryFor_name (ps : String → Option ℤ) (pn : ℚ → Option ℤ)
    (c : Column) (nm : String) (e : DateEntry)
    (h : dateEntryFor ps pn c = some (nm, e)) : nm = c.name := by
  simp only [dateEntryFor] at h
  by_cases hd : c.dtype = DType.datetime
  · rw [if_pos hd] at h
    injection h with h'
    exact (congrArg Prod.fst h').symm
  · rw [if_neg hd] at h
    by_cases hg : 0 < c.cells.length ∧
        (((c.cells.map (parseCell ps pn)).countP Option.isSome : ℚ) / c.cells.length) < 7/10
    · rw [if_pos hg] at h
      cases h
    · rw [if_neg hg] at h
      injection h with h'
      exact (congrArg Prod.fst h').symm

/-- C3 amended: an object-dtype column with at least one row is analyzed by
the temporal pass if and only if the successfully parsed values are at least
70 percent of ALL its values, nulls included: the source divides the parsed
count by the total length, not by the non-null count. -/
theorem date_ratio_amended (ps : String → Option ℤ) (pn : ℚ → Option ℤ)
    (t : Table) (c : Column)
    (hc : c ∈ t) (hdt : c.dtype = DType.object)
    (hnd : (t.map Column.name).Nodup) (hlen : 0 < c.cells.length) :
    ∀ r, (analyze_date_columns_table ps pn t).1 = some r →
      (c.name ∈ r.map Prod.fst ↔
        (7/10 : ℚ) ≤
          ((c.cells.map (parseCell ps pn)).countP Option.isSome : ℚ) / c.cells.length) := by
  intro r hr
  have hdne : ¬(c.dtype = DType.datetime) := by rw [hdt]; intro h; cases h
  have hr' : r = t.filterMap (dateEntryFor ps pn) := by
    simp only [analyze_date_columns_table] at hr
    exact (Option.some.injEq _ _ ▸ hr).symm
  constructor
  · intro hmem
    rw [hr'] at hmem
    rcases List.mem_map.1 hmem with ⟨⟨nm, e⟩, hpe, hnm⟩
    rcases List.mem_filterMap.1 hpe with ⟨c', hc', hfc'⟩
    have hname : nm = c'.name := dateEntryFor_name ps pn c' nm e hfc'
    have heq : c'.name = c.name := by rw [← hname]; exact hnm
    have hcc : c' = c := List.inj_on_of_nodup_map hnd hc' hc heq
    rw [hcc, dateEntryFor_object ps pn c hdne] at hfc'
    by_contra hra
    have hguard : 0 < c.cells.length ∧
        (((c.cells.map (parseCell ps pn)).countP Option.isSome : ℚ) / c.cells.length) < 7/10 :=
      ⟨hlen, lt_of_not_le hra⟩
    rw [if_pos hguard] at hfc'
    cases hfc'
  · intro hra
    have hguard : ¬(0 < c.cells.length ∧
        (((c.cells.map (parseCell ps pn)).countP Option.isSome : ℚ) / c.cells.length) < 7/10) := by
      rintro ⟨-, hlt⟩
      exact absurd hra (not_le.2 hlt)
    rw [hr']
    refine List.mem_map.2 ⟨(c.name, mkDateEntry (c.cells.map (parseCell ps pn))), ?_, rfl⟩
    refine List.mem_filterMap.2 ⟨c, hc, ?_⟩
    rw [dateEntryFor_object ps pn c hdne, if_neg hguard]

/-- The string parser of the counterexample scenario: it recognises exactly
the one date literal used there (the model of `pd.to_datetime` on it). -/
def dateParserCE : String → Option ℤ := fun s => if s = "2020-01-01" then some 18262 else none

/-- The numeric parser of the counterexample scenario (no numeric cells). -/
def numParserCE : ℚ → Option ℤ := fun _ => none

/-- An object column with one parseable date and two nulls. -/
def dateColumnCE : Column :=
  { name := "d", dtype := DType.object,
    cells := [Cell.str "2020-01-01", Cell.null, Cell.null] }

/-- The counterexample column alone in a table. -/
def dateTableCE : Table := [dateColumnCE]

/-- C3 counterexample: the object column has exactly one non-null value and
it parses as a date, so the claimed ratio over non-null values is 100
percent, over the 70 percent bar; yet the source divides the parsed count by
the total length (1/3 < 0.7) and skips the column: the date analysis comes
back empty. -/
theorem date_ratio_counterexample :
    (dateColumnCE.cells.countP (fun x => decide (x ≠ Cell.null)) = 1) ∧
    ((dateColumnCE.cells.map (parseCell dateParserCE numParserCE)).countP Option.isSome = 1) ∧
    (analyze_date_columns_table dateParserCE numParserCE dateTableCE).1 = some [] := by
  have hcnt : (dateColumnCE.cells.map (parseCell dateParserCE numParserCE)).countP
      Option.isSome = 1 := by decide
  have hlen : dateColumnCE.cells.length = 3 := by decide
  have hg : dateEntryFor dateParserCE numParserCE dateColumnCE = none := by
    rw [dateEntryFor_object dateParserCE numParserCE dateColumnCE (by decide)]
    rw [if_pos ⟨by decide, by rw [hcnt, hlen]; norm_num⟩]
  refine ⟨by decide, hcnt, ?_⟩
  simp [analyze_date_columns_table, dateTableCE, hg]

/-- An object column whose three values all parse as dates. -/
def dateColumnOK : Column :=
  { name := "d", dtype := DType.object,
    cells := [Cell.str "2020-01-01", Cell.str "2020-01-02", Cell.str "2020-01-03"] }

/-- The fully parseable column alone in a table. -/
def dateTableOK : Table := [dateColumnOK]

/-- The string parser of the witness scenario. -/
def dateParserOK : String → Option ℤ := fun s =>
  if s = "2020-01-01" then some 18262
  else if s = "2020-01-02" then some 18263
  else if s = "2020-01-03" then some 18264
  else none

/-- Witness for `date_ratio_amended` at a fully parseable object column;
hypotheses discharged by computation. -/
theorem date_ratio_amended_witness :
    (dateColumnOK ∈ dateTableOK) ∧
    (dateColumnOK.dtype = DType.object) ∧
    ((dateTableOK.map Column.name).Nodup) ∧
    (0 < dateColumnOK.cells.length) ∧
    (∀ r, (analyze_date_columns_table dateParserOK numParserCE dateTableOK).1 = some r →
      (dateColumnOK.name ∈ r.map Prod.fst ↔
        (7/10 : ℚ) ≤
          ((dateColumnOK.cells.map (parseCell dateParserOK numParserCE)).countP
              Option.isSome : ℚ) / dateColumnOK.cells.length)) :=
  ⟨by decide, by decide, by decide, by decide,
   date_ratio_amended dateParserOK numParserCE dateTableOK dateColumnOK
     (by decide) (by decide) (by decide) (by decide)⟩

/-- An all-null column carrying the numeric dtype pandas assigns an empty
Excel column. -/
def allNullNumColumn : Column :=
  { name := "c", dtype := DType.numeric, cells := [Cell.null] }

/-- The all-null numeric column alone in a table. -/
def allNullNumTable : Table := [allNullNumColumn]

/-- C7 counterexample: a column with zero non-null values is NOT necessarily
classified categorical: with the numeric dtype pandas gives an empty Excel
column, the categorical pass selects nothing and takes its early empty
return (no record at all), while the numeric passes select the column. -/
theorem categorical_allnull_counterexample :
    (allNullNumColumn.cells.countP (fun x => decide (x ≠ Cell.null)) = 0) ∧
    categorical_cols allNullNumTable = [] ∧
    numerical_cols allNullNumTable = [allNullNumColumn] ∧
    (analyze_categorical_data_table allNullNumTable 5).1 = none ∧
    (analyze_categorical_data_table allNullNumTable 5).2 =
      ["No categorical columns found in the data."] := by
  have hcc : categorical_cols allNullNumTable = [] := by decide
  refine ⟨by decide, hcc, by decide, ?_, ?_⟩ <;>
    simp [analyze_categorical_data_table, hcc]

/-- C7 amended: restricted to the columns the source actually classifies
categorical (object, string or category dtype): such a column with zero
non-null values still yields a record, reporting zero unique values, an
empty top-category mapping and an empty percentage mapping, with no division
by zero (the percentage comprehension ranges over the empty mapping). -/
theorem categorical_allnull_amended (t : Table) (c : Column) (top_n : ℕ)
    (hc : c ∈ t)
    (hdt : c.dtype = DType.object ∨ c.dtype = DType.string ∨ c.dtype = DType.category)
    (hnull : ∀ x ∈ c.cells, x = Cell.null) :
    ∀ r, (analyze_categorical_data_table t top_n).1 = some r →
      (c.name, mkCatEntryN (nRows t) top_n c) ∈ r ∧
      (mkCatEntryN (nRows t) top_n c).unique_values = 0 ∧
      (mkCatEntryN (nRows t) top_n c).top_categories = [] ∧
      (mkCatEntryN (nRows t) top_n c).top_categories_pct = [] := by
  intro r hr
  have hcc : c ∈ categorical_cols t := List.mem_filter.2 ⟨hc, by simpa using hdt⟩
  have hne : ¬(categorical_cols t = []) := fun h => by rw [h] at hcc; cases hcc
  have hr' : r = (categorical_cols t).map (fun c => (c.name, mkCatEntryN (nRows t) top_n c)) := by
    simp only [analyze_categorical_data_table, if_neg hne] at hr
    exact (Option.some.injEq _ _ ▸ hr).symm
  have hfil : c.cells.filter (fun x => !decide (x = Cell.null)) = [] := by
    rw [List.filter_eq_nil_iff]
    intro a ha
    simp [hnull a ha]
  have hvc : value_counts c.cells = [] := by
    simp [value_counts, hfil, distinctFirst, distinctFirstAux, sortBy]
  refine ⟨?_, ?_, ?_, ?_⟩
  · rw [hr']
    exact List.mem_map.2 ⟨c, hcc, rfl⟩
  · simp [mkCatEntryN, hfil, distinctFirst, distinctFirstAux]
  · simp [mkCatEntryN, hvc]
  · simp [mkCatEntryN, hvc]

/-- An all-null column of object dtype. -/
def allNullObjColumn : Column :=
  { name := "s", dtype := DType.object, cells := [Cell.null, Cell.null] }

/-- The all-null object column alone in a table. -/
def allNullObjTable : Table := [allNullObjColumn]

/-- Witness for `categorical_allnull_amended` at the concrete all-null
object column with the source's default top_n of 5. -/
theorem categorical_allnull_amended_witness :
    (allNullObjColumn ∈ allNullObjTable) ∧
    (allNullObjColumn.dtype = DType.object ∨ allNullObjColumn.dtype = DType.string ∨
      allNullObjColumn.dtype = DType.category) ∧
    (∀ x ∈ allNullObjColumn.cells, x = Cell.null) ∧
    (∀ r, (analyze_categorical_data_table allNullObjTable 5).1 = some r →
      (allNullObjColumn.name, mkCatEntryN (nRows allNullObjTable) 5 allNullObjColumn) ∈ r ∧
      (mkCatEntryN (nRows allNullObjTable) 5 allNullObjColumn).unique_values = 0 ∧
      (mkCatEntryN (nRows allNullObjTable) 5 allNullObjColumn).top_categories = [] ∧
      (mkCatEntryN (nRows allNullObjTable) 5 allNullObjColumn).top_categories_pct = []) :=
  ⟨by decide, by decide, by decide,
   categorical_allnull_amended allNullObjTable allNullObjColumn 5
     (by decide) (by decide) (by decide)⟩

theorem runPass_other_keys {ρ : Type} (st : EngineState) (sheet : Option String)
    (kind : String) (f : Table → Option ρ × List String) (g : ρ → Rec) (emptyR : ρ)
    (k : String) (hk : k ≠ storeKey sheet) :
    alookup k ((alookup kind ((runPass st sheet kind f g emptyR).2).insights).getD []) =
      alookup k ((alookup kind st.insights).getD []) := by
  unfold runPass
  cases hr : resolveData st sheet with
  | none => rfl
  | some d =>
      rcases hf : f d with ⟨o, msgs⟩
      cases o with
      | none => simp only [hf]
      | some r =>
          simp only [hf]
          show alookup k
              ((alookup kind (updateInsights kind (storeKey sheet) (g r) st.insights)).getD []) = _
          rw [updateInsights, alookup_dictInsert, Option.getD_some,
            alookup_dictInsert_ne _ _ _ _ hk]

theorem iqrTable_outliers_eval :
    identify_outliers_table iqrTable "iqr" (3/2) =
      (some [("a", { count := 1, percentage := 25, values := [100] })], []) := by
  have hq1 : quantile [1, 2, 3, 100] (1/4) = 7/4 := by
    norm_num [quantile, sortAsc, sortBy, insertBy]
  have hq3 : quantile [1, 2, 3, 100] (3/4) = 109/4 := by
    norm_num [quantile, sortAsc, sortBy, insertBy]
    simp
    norm_num
  have hxs : nonNull iqrColumn = [1, 2, 3, 100] := by
    norm_num [nonNull, iqrColumn, cellNum, List.filterMap_cons]
  have hflag : iqrOutliers [1, 2, 3, 100] (3/2) = [100] := by
    simp only [iqrOutliers, hq1, hq3]
    norm_num [List.filter]
  have hentry : outlierEntryFor "iqr" (3/2) iqrColumn =
      some ("a", { count := 1, percentage := 25, values := [100] }) := by
    have hname : iqrColumn.name = "a" := rfl
    simp [outlierEntryFor, outlierColResult, hxs, hflag, mkOutlierEntry, hname]
    norm_num
  have hcols : numerical_cols iqrTable = [iqrColumn] := by
    simp [numerical_cols, iqrTable, iqrColumn]
  have hmsg : (outlierColResult "iqr" (3/2) (nonNull iqrColumn)).2 = [] := by
    simp [outlierColResult]
  simp [identify_outliers_table, hcols, hentry, hmsg]

/-- The engine state of the unknown-sheet scenarios: one loaded sheet whose
table is also the default dataframe, no insights yet. -/
def ghostState : EngineState :=
  { data := some iqrTable, sheets := [("Sheet1", iqrTable)], insights := [], out := [] }

/-- C10 counterexample: the empty string is a sheet name that is not a key
of the sheet collection, and the outlier pass does silently compute from the
default table; but Python truthiness routes the store to the `"default"`
slot, NOT to the given unknown sheet name. -/
theorem unknown_sheet_counterexample :
    (alookup "" ghostState.sheets = none) ∧
    (ghostState.data = some iqrTable) ∧
    ((identify_outliers ghostState (some "") "iqr" (3/2)).1 =
      [("a", { count := 1, percentage := 25, values := [100] })]) ∧
    (alookup "default"
        ((alookup "outliers"
          (((identify_outliers ghostState (some "") "iqr" (3/2)).2).insights)).getD []) =
      some (Rec.outl [("a", { count := 1, percentage := 25, values := [100] })])) ∧
    (alookup ""
        ((alookup "outliers"
          (((identify_outliers ghostState (some "") "iqr" (3/2)).2).insights)).getD []) =
      none) := by
  have hres : resolveData ghostState (some "") = some iqrTable := by
    simp [resolveData, ghostState]
  have hio : identify_outliers ghostState (some "") "iqr" (3/2) =
      ([("a", { count := 1, percentage := 25, values := [100] })],
        { data := some iqrTable, sheets := [("Sheet1", iqrTable)],
          insights := [("outliers",
            [("default", Rec.outl [("a", { count := 1, percentage := 25, values := [100] })])])],
          out := [] }) := by
    unfold identify_outliers runPass
    rw [hres]
    simp only [iqrTable_outliers_eval]
    simp [storeKey, updateInsights, dictInsert, alookup, ghostState]
  refine ⟨by decide, rfl, ?_, ?_, ?_⟩ <;> rw [hio] <;> simp [alookup]

/-- C10 amended: for every NON-EMPTY sheet name that is not a key of the
sheet collection, each pass silently computes its result from the default
table (result and printed output identical to the default invocation) and,
unless it took an early empty return, stores the record under the given
unknown name while leaving every other slot of its kind untouched; with the
empty-string name the record lands under "default" instead. -/
theorem unknown_sheet_uses_default (st : EngineState) (s : String)
    (method : String) (thr thrC : ℚ) (top_n : ℕ)
    (ps : String → Option ℤ) (pn : ℚ → Option ℤ)
    (hs : s ≠ "") (hlk : alookup s st.sheets = none) :
    ((generate_summary_statistics st (some s)).1 = (generate_summary_statistics st none).1 ∧
      ((generate_summary_statistics st (some s)).2).out =
        ((generate_summary_statistics st none).2).out) ∧
    ((find_correlations st (some s) thrC).1 = (find_correlations st none thrC).1 ∧
      ((find_correlations st (some s) thrC).2).out = ((find_correlations st none thrC).2).out) ∧
    ((identify_outliers st (some s) method thr).1 = (identify_outliers st none method thr).1 ∧
      ((identify_outliers st (some s) method thr).2).out =
        ((identify_outliers st none method thr).2).out) ∧
    ((analyze_categorical_data st (some s) top_n).1 =
        (analyze_categorical_data st none top_n).1 ∧
      ((analyze_categorical_data st (some s) top_n).2).out =
        ((analyze_categorical_data st none top_n).2).out) ∧
    ((analyze_date_columns ps pn st (some s)).1 = (analyze_date_columns ps pn st none).1 ∧
      ((analyze_date_columns ps pn st (some s)).2).out =
        ((analyze_date_columns ps pn st none).2).out) ∧
    (storeKey (some s) = s) ∧
    (((identify_outliers st (some s) method thr).2).insights = st.insights ∨
      alookup s
          ((alookup "outliers" (((identify_outliers st (some s) method thr).2).insights)).getD []) =
        some (Rec.outl (identify_outliers st (some s) method thr).1)) ∧
    (∀ k, k ≠ s →
      alookup k
          ((alookup "outliers" (((identify_outliers st (some s) method thr).2).insights)).getD []) =
        alookup k ((alookup "outliers" st.insights).getD [])) := by
  have hsk : storeKey (some s) = s := by simp [storeKey, hs]
  refine ⟨runPass_ghost_sheet st s _ _ _ _ hlk,
          runPass_ghost_sheet st s _ _ _ _ hlk,
          runPass_ghost_sheet st s _ _ _ _ hlk,
          runPass_ghost_sheet st s _ _ _ _ hlk,
          runPass_ghost_sheet st s _ _ _ _ hlk,
          hsk, ?_, ?_⟩
  · have h := runPass_store st (some s) "outliers"
      (fun d => identify_outliers_table d method thr) Rec.outl []
    rw [hsk] at h
    exact h
  · intro k hk
    exact runPass_other_keys st (some s) "outliers"
      (fun d => identify_outliers_table d method thr) Rec.outl [] k (by rw [hsk]; exact hk)

/-- Witness for `unknown_sheet_uses_default`: the unknown non-empty sheet
name `"ghost"` on the loaded engine state, hypotheses discharged by
computation. -/
theorem unknown_sheet_uses_default_witness :
    ("ghost" ≠ "") ∧
    (alookup "ghost" ghostState.sheets = none) ∧
    (((generate_summary_statistics ghostState (some "ghost")).1 =
        (generate_summary_statistics ghostState none).1 ∧
      ((generate_summary_statistics ghostState (some "ghost")).2).out =
        ((generate_summary_statistics ghostState none).2).out) ∧
    ((find_correlations ghostState (some "ghost") (1/2)).1 =
        (find_correlations ghostState none (1/2)).1 ∧
      ((find_correlations ghostState (some "ghost") (1/2)).2).out =
        ((find_correlations ghostState none (1/2)).2).out) ∧
    ((identify_outliers ghostState (some "ghost") "iqr" (3/2)).1 =
        (identify_outliers ghostState none "iqr" (3/2)).1 ∧
      ((identify_outliers ghostState (some "ghost") "iqr" (3/2)).2).out =
        ((identify_outliers ghostState none "iqr" (3/2)).2).out) ∧
    ((analyze_categorical_data ghostState (some "ghost") 5).1 =
        (analyze_categorical_data ghostState none 5).1 ∧
      ((analyze_categorical_data ghostState (some "ghost") 5).2).out =
        ((analyze_categorical_data ghostState none 5).2).out) ∧
    ((analyze_date_columns dateParserOK numParserCE ghostState (some "ghost")).1 =
        (analyze_date_columns dateParserOK numParserCE ghostState none).1 ∧
      ((analyze_date_columns dateParserOK numParserCE ghostState (some "ghost")).2).out =
        ((analyze_date_columns dateParserOK numParserCE ghostState none).2).out) ∧
    (storeKey (some "ghost") = "ghost") ∧
    (((identify_outliers ghostState (some "ghost") "iqr" (3/2)).2).insights =
        ghostState.insights ∨
      alookup "ghost"
          ((alookup "outliers"
            (((identify_outliers ghostState (some "ghost") "iqr" (3/2)).2).insights)).getD []) =
        some (Rec.outl (identify_outliers ghostState (some "ghost") "iqr" (3/2)).1)) ∧
    (∀ k, k ≠ "ghost" →
      alookup k
          ((alookup "outliers"
            (((identify_outliers ghostState (some "ghost") "iqr" (3/2)).2).insights)).getD []) =
        alookup k ((alookup "outliers" ghostState.insights).getD []))) :=
  ⟨by decide, by decide,
   unknown_sheet_uses_default ghostState "ghost" "iqr" (3/2) (1/2) 5
     dateParserOK numParserCE (by decide) (by decide)⟩
